import Mathlib

/-!
Verification of the nodo robotics framework against its specification.

This file shallowly embeds the parts of the code base that the claims
concern and proves (or refutes) each claim:

* `src/nodo/src/channels/stage_queue.rs` — staged double-buffer queues
  (`FrontStage`, `BackStage`, overflow and retention policies, `push`,
  `sync`).
* `src/nodo/src/channels/mod.rs` — `FlushResult` / `FlushErrorIndicator`.
* `src/nodo/src/channels/double_buffer_channel.rs` — `DoubleBufferTx::flush`
  and the `Pop` implementation for triples of receivers.
* `src/nodo_runtime/src/state_machine.rs` — the codelet lifecycle state
  machine.
* `src/nodo_runtime/src/schedule_executor.rs` — `ScheduleExecutor::spin`
  and `SequenceExec::cycle`.

`VecDeque`s are modelled as Lean `List`s whose head is the front of the
deque (`pop_front` = head, `push_back` = append at the end).  Capacity
bookkeeping of `VecDeque` (an allocation detail) is not modelled; the
lengths and contents are.  Rust panics (`assert!`, `unreachable!`,
`unwrap` on `Err`) are modelled by returning `none` from an
`Option`-valued function.
-/

namespace Nodo

/-! ## stage_queue.rs -/

/-- `OverflowPolicy` from `src/nodo/src/channels/stage_queue.rs`. -/
inductive OverflowPolicy where
  /-- An error code is returned and the item is not added to the queue. -/
  | reject (n : Nat)
  /-- The oldest item is removed to make room for the new item. -/
  | forget (n : Nat)
  /-- Queue capacity is increased indefinitely to fit the new item.
      The payload is the `StrictlyIncreasingLinear` growth function
      `f(x) = factor*x + addend`; it only affects capacity reservation,
      which is not modelled. -/
  | resize (addend factor : Nat)
  deriving DecidableEq, Repr

/-- `RetentionPolicy` from `src/nodo/src/channels/stage_queue.rs`. -/
inductive RetentionPolicy where
  | keep
  | drop
  | enforceEmpty
  deriving DecidableEq, Repr

/-- `PushError` from `src/nodo/src/channels/stage_queue.rs`. -/
inductive PushError where
  | rejected
  deriving DecidableEq, Repr

/-- `SyncError` from `src/nodo/src/channels/stage_queue.rs`. -/
inductive SyncError where
  | notEmpty
  deriving DecidableEq, Repr

/-- `FrontStage<T>`: the front stage of a staged queue.  The `capacity`
field mirrors the Rust field of the same name. -/
structure FrontStage (α : Type) where
  items : List α
  capacity : Nat
  deriving DecidableEq, Repr

/-- `BackStage<T>`: the back stage of a staged queue. -/
structure BackStage (α : Type) where
  items : List α
  overflow_policy : OverflowPolicy
  retention_policy : RetentionPolicy
  deriving DecidableEq, Repr

/-- The constructor precondition of `BackStage::new`: retention `Keep`
is not allowed together with overflow `Reject`. -/
def BackStage.validPolicies (s : BackStage α) : Prop :=
  s.retention_policy = RetentionPolicy.keep →
    ∀ n, s.overflow_policy ≠ OverflowPolicy.reject n

/-- `BackStage::push` from `src/nodo/src/channels/stage_queue.rs`.
Returns the updated back stage together with the `Result`. -/
def BackStage.push (s : BackStage α) (value : α) :
    BackStage α × Except PushError Unit :=
  match s.overflow_policy with
  | .reject n =>
    if s.items.length = n then
      (s, .error .rejected)
    else
      ({ s with items := s.items ++ [value] }, .ok ())
  | .forget n =>
    let items := if s.items.length = n then s.items.tail else s.items
    ({ s with items := items ++ [value] }, .ok ())
  | .resize _ _ =>
    -- capacity growth via the strictly increasing linear function is an
    -- allocation detail; the item is always appended
    ({ s with items := s.items ++ [value] }, .ok ())

/-- `BackStage::sync` from `src/nodo/src/channels/stage_queue.rs`.
Returns `none` where the Rust code panics (the `assert!`s in the
`Keep`+`Forget` branch and the `unreachable!` in the `Keep`+`Reject`
branch); otherwise returns the updated back stage, the updated front
stage, and the `Result`. -/
def BackStage.sync (s : BackStage α) (target : FrontStage α) :
    Option (BackStage α × FrontStage α × Except SyncError Unit) :=
  match s.retention_policy with
  | .keep =>
    match s.overflow_policy with
    | .forget n =>
      let incoming_count := s.items.length
      if incoming_count ≤ n then
        let current_count := target.items.length
        if current_count ≤ n then
          let available_count := n - target.items.length
          let target1 :=
            if available_count < incoming_count then
              { target with
                items := target.items.drop (incoming_count - available_count) }
            else target
          some ({ s with items := [] },
                { target1 with items := target1.items ++ s.items },
                .ok ())
        else none
      else none
    | .reject _ =>
      -- `unreachable!()`: ruled out by the constructor
      none
    | .resize _ _ =>
      -- NOTE: the source appends the *front* items onto the *back* stage
      -- (`self.items.append(&mut target.items)`), leaving the front empty
      some ({ s with items := s.items ++ target.items },
            { target with items := [] },
            .ok ())
  | .drop =>
    some ({ s with items := [] }, { target with items := s.items }, .ok ())
  | .enforceEmpty =>
    if target.items.isEmpty then
      some ({ s with items := [] }, { target with items := s.items }, .ok ())
    else
      some (s, target, .error .notEmpty)

/-- Pushing a whole list of values in order, collecting each push's
result.  Used to express "every subsequent push" properties. -/
def BackStage.pushAll (s : BackStage α) :
    List α → BackStage α × List (Except PushError Unit)
  | [] => (s, [])
  | v :: rest =>
    let (s1, r) := s.push v
    let (s2, rs) := s1.pushAll rest
    (s2, r :: rs)

/-! ## channels/mod.rs — flush results and the error indicator -/

/-- `FlushErrorIndicator` from `src/nodo/src/channels/mod.rs`.  `marks` is
a `u64` bitmask in the source; with at most 64 connections every bit
index is below 64 and none of the operations below ever produces a value
`≥ 2^64`, so plain `Nat` bit operations model it exactly. -/
structure FlushErrorIndicator where
  marks : Nat
  deriving DecidableEq, Repr

/-- `FlushErrorIndicator::NO_ERROR`. -/
def FlushErrorIndicator.noError : FlushErrorIndicator := { marks := 0 }

/-- `FlushErrorIndicator::mark`: the source performs
`self.marks &= 1 << i` — a bitwise AND, not an OR. -/
def FlushErrorIndicator.mark (e : FlushErrorIndicator) (i : Nat) :
    FlushErrorIndicator :=
  { marks := e.marks &&& (1 <<< i) }

/-- `FlushErrorIndicator::is_err`. -/
def FlushErrorIndicator.isErr (e : FlushErrorIndicator) : Bool :=
  e.marks ≠ 0

/-- `FlushErrorIndicator::get`. -/
def FlushErrorIndicator.get (e : FlushErrorIndicator) (i : Nat) : Bool :=
  e.marks &&& (1 <<< i) ≠ 0

/-- `FlushResult` from `src/nodo/src/channels/mod.rs`. -/
structure FlushResult where
  available : Nat
  cloned : Nat
  published : Nat
  error_indicator : FlushErrorIndicator
  deriving DecidableEq, Repr

/-- `FlushResult::ZERO` (also its `Default`). -/
def FlushResult.zero : FlushResult :=
  { available := 0, cloned := 0, published := 0,
    error_indicator := FlushErrorIndicator.noError }

/-! ## channels/double_buffer_channel.rs — transmitter flush -/

/-- `DoubleBufferTx<T>` from
`src/nodo/src/channels/double_buffer_channel.rs`.  Each connection is
the connected receiver's shared back stage; the `Arc<RwLock<…>>` sharing
is immaterial to a single flush, so the back stages are held directly. -/
structure DoubleBufferTx (α : Type) where
  outbox : BackStage α
  connections : List (BackStage α)
  deriving Repr

/-- One flush loop body: push the messages into a connection's back
stage, stopping at the first failed push.  Returns the updated stage,
the number of messages pushed, and whether a push failed. -/
def flushPushLoop (q : BackStage α) : List α → BackStage α × Nat × Bool
  | [] => (q, 0, false)
  | v :: rest =>
    match q.push v with
    | (q1, .ok _) =>
      let (q2, cnt, failed) := flushPushLoop q1 rest
      (q2, cnt + 1, failed)
    | (q1, .error _) => (q1, 0, true)

/-- The first loop of `DoubleBufferTx::flush`: clone messages into
connections `2..N` (indices from `i0`), updating the statistics and, on
a failed push, marking the connection's bit. -/
def flushClones (msgs : List α) :
    Nat → List (BackStage α) → FlushResult →
      List (BackStage α) × FlushResult
  | _, [], res => ([], res)
  | i, q :: rest, res =>
    let (q1, cnt, failed) := flushPushLoop q msgs
    let res1 := { res with cloned := res.cloned + cnt,
                           published := res.published + cnt }
    let res2 :=
      if failed then
        { res1 with error_indicator := res1.error_indicator.mark i }
      else res1
    let (rest1, res3) := flushClones msgs (i + 1) rest res2
    (q1 :: rest1, res3)

/-- `DoubleBufferTx::flush` from
`src/nodo/src/channels/double_buffer_channel.rs`.  Messages are cloned
into connections `2..N` first, then moved into connection `1`
(`drain_all` empties the outbox even when the loop breaks early; with no
connection the outbox is cleared as well). -/
def DoubleBufferTx.flush (tx : DoubleBufferTx α) :
    DoubleBufferTx α × FlushResult :=
  let res0 := { FlushResult.zero with available := tx.outbox.items.length }
  match tx.connections with
  | [] => ({ tx with outbox := { tx.outbox with items := [] } }, res0)
  | c0 :: rest =>
    let (rest1, res1) := flushClones tx.outbox.items 1 rest res0
    let (c1, cnt0, failed0) := flushPushLoop c0 tx.outbox.items
    let res2 := { res1 with published := res1.published + cnt0 }
    let res3 :=
      if failed0 then
        { res2 with error_indicator := res2.error_indicator.mark 0 }
      else res2
    ({ outbox := { tx.outbox with items := [] },
       connections := c1 :: rest1 }, res3)

/-- The per-instance flush check of `CodeletInstance::flush`
(`src/nodo/src/codelet/codelet_instance.rs`): the instance's flush step
fails iff some transmitter's flush result has `error_indicator.is_err()`. -/
def instanceFlushFails (results : List FlushResult) : Bool :=
  results.any (fun r => r.error_indicator.isErr)

/-! ## channels/double_buffer_channel.rs — receivers and `Pop` -/

/-- `RxRecvError` (the misspelt `QueueEmtpy` variant is the source's). -/
inductive RxRecvError where
  | queueEmtpy
  deriving DecidableEq, Repr

/-- The part of `DoubleBufferRx<T>` that `Pop` touches: the front stage
items (head of the list = next message). -/
structure DoubleBufferRx (α : Type) where
  front : List α
  deriving DecidableEq, Repr

/-- `Pop::is_empty` for `DoubleBufferRx`. -/
def DoubleBufferRx.isEmpty (r : DoubleBufferRx α) : Bool :=
  r.front.isEmpty

/-- `Pop::pop` for `DoubleBufferRx`:
`self.front.pop().ok_or(RxRecvError::QueueEmtpy)`. -/
def DoubleBufferRx.pop (r : DoubleBufferRx α) :
    DoubleBufferRx α × Except RxRecvError α :=
  match r.front with
  | [] => (r, .error .queueEmtpy)
  | v :: rest => ({ front := rest }, .ok v)

/-- `Pop::is_empty` for the triple
`(&mut T1, &mut T2, &mut T3)`: the source checks only
`self.0.is_empty() || self.1.is_empty()` — the third receiver is not
consulted. -/
def tripleIsEmpty (r1 : DoubleBufferRx α) (r2 : DoubleBufferRx β)
    (r3 : DoubleBufferRx γ) : Bool :=
  r1.isEmpty || r2.isEmpty

/-- `Pop::pop` for the triple `(&mut T1, &mut T2, &mut T3)`.  When
`is_empty` is false the source unwraps all three pops; an `unwrap` of an
`Err` is a panic, modelled as `none`. -/
def triplePop (r1 : DoubleBufferRx α) (r2 : DoubleBufferRx β)
    (r3 : DoubleBufferRx γ) :
    Option ((DoubleBufferRx α × DoubleBufferRx β × DoubleBufferRx γ) ×
      Except RxRecvError (α × β × γ)) :=
  if tripleIsEmpty r1 r2 r3 then
    some ((r1, r2, r3), .error .queueEmtpy)
  else
    match r1.pop, r2.pop, r3.pop with
    | (s1, .ok a), (s2, .ok b), (s3, .ok c) =>
      some ((s1, s2, s3), .ok (a, b, c))
    | _, _, _ => none

/-! ## nodo_runtime/src/state_machine.rs — the lifecycle state machine -/

/-- `Transition` from `src/nodo/src/codelet/transition.rs`. -/
inductive Transition where
  | start
  | step
  | stop
  | pause
  | resume
  deriving DecidableEq, Repr

/-- `State` from `src/nodo_runtime/src/state_machine.rs` (this variant
has the `Error` state). -/
inductive State where
  | inactive
  | started
  | paused
  | error
  deriving DecidableEq, Repr

/-- `State::transition` from `src/nodo_runtime/src/state_machine.rs`:
the next state after a successful state transition, `none` when the
request is not legal in the current state. -/
def State.transition : State → Transition → Option State
  | .started, .stop => some .inactive
  | .paused, .stop => some .inactive
  | .inactive, .start => some .started
  | .started, .step => some .started
  | .paused, .resume => some .started
  | .started, .pause => some .paused
  | _, _ => none

/-- `TransitionError` from `src/nodo_runtime/src/state_machine.rs`.
`ε` stands for `eyre::Report`, which is opaque. -/
inductive TransitionError (ε : Type) where
  | invalidTransition (state : State) (transition : Transition)
  | executionFailure (transition : Transition) (report : ε)
  deriving DecidableEq, Repr

/-- `StateMachine<C>`: the inner codelet's state is of an abstract type
`σ`; its `Lifecycle::cycle` is passed separately as a function
`σ → Transition → Except ε κ × σ` (state-passing form of
`fn cycle(&mut self, Transition) -> Result<κ, ε>`). -/
structure StateMachine (σ : Type) where
  inner : σ
  state : State
  deriving DecidableEq, Repr

/-- `StateMachine::transition` from
`src/nodo_runtime/src/state_machine.rs`: when the request is legal, run
the inner cycle; on success adopt the table's destination state, on
failure go to `State::Error` and report `ExecutionFailure`; when the
request is illegal, report `InvalidTransition` without touching the
inner codelet. -/
def StateMachine.transition (cycle : σ → Transition → Except ε κ × σ)
    (m : StateMachine σ) (t : Transition) :
    StateMachine σ × Except (TransitionError ε) κ :=
  match m.state.transition t with
  | some next_state =>
    match cycle m.inner t with
    | (.ok kind, inner1) =>
      ({ inner := inner1, state := next_state }, .ok kind)
    | (.error err, inner1) =>
      ({ inner := inner1, state := .error },
       .error (.executionFailure t err))
  | none => (m, .error (.invalidTransition m.state t))

/-- `StateMachine::is_valid_request`. -/
def StateMachine.isValidRequest (m : StateMachine σ) (t : Transition) :
    Bool :=
  (m.state.transition t).isSome

/-- Iterate `StateMachine::transition` over a list of requests,
collecting every result.  Used to express the "no subsequent transition
ever succeeds" part of the error-stickiness claim. -/
def StateMachine.runList (cycle : σ → Transition → Except ε κ × σ) :
    StateMachine σ → List Transition →
      StateMachine σ × List (Except (TransitionError ε) κ)
  | m, [] => (m, [])
  | m, t :: ts =>
    let (m1, r) := m.transition cycle t
    let (m2, rs) := StateMachine.runList cycle m1 ts
    (m2, r :: rs)

/-! ## nodo_runtime/src/schedule_executor.rs -/

/-- Modelled from the spec: `nodo_core::DefaultStatus` is not under
`src/` (only `use nodo_core::DefaultStatus` importers are); the spec
says `as_default_status()` collapses a codelet status to
\{ Skipped, Running \}. -/
inductive DefaultStatus where
  | skipped
  | running
  deriving DecidableEq, Repr

/-- The fields of `ScheduleExecutor` that `spin`, `is_terminated` and
the claims touch.  `name`, `thread_id`, `period` and `last_instant`
(wall-clock bookkeeping and logging only) are omitted. -/
structure ScheduleExecutor (σ : Type) where
  sm : StateMachine σ
  next_transition : Option Transition
  max_step_count : Option Nat
  num_steps : Nat
  deriving DecidableEq, Repr

/-- `ScheduleExecutor::is_terminated`. -/
def ScheduleExecutor.isTerminated (e : ScheduleExecutor σ) : Bool :=
  e.next_transition.isNone

/-- The first block of `ScheduleExecutor::spin`: when a transition is
pending and `num_steps >= max_step_count`, force the next transition to
`Stop`. -/
def ScheduleExecutor.adjustMaxSteps (e : ScheduleExecutor σ) :
    ScheduleExecutor σ :=
  if e.next_transition.isSome then
    match e.max_step_count with
    | some m =>
      if m ≤ e.num_steps then { e with next_transition := some .stop }
      else e
    | none => e
  else e

/-- `ScheduleExecutor::spin` from
`src/nodo_runtime/src/schedule_executor.rs` (time-stamping and logging
omitted): apply the max-step-count adjustment, execute the pending
transition through the state machine, and compute the next pending
transition from the outcome. -/
def ScheduleExecutor.spin
    (cycle : σ → Transition → Except ε DefaultStatus × σ)
    (e0 : ScheduleExecutor σ) : ScheduleExecutor σ :=
  let e := e0.adjustMaxSteps
  match e.next_transition with
  | some t =>
    let e1 := if t = .step then { e with num_steps := e.num_steps + 1 }
              else e
    let (sm1, result) := e1.sm.transition cycle t
    match result with
    | .ok .running | .ok .skipped =>
      { e1 with
        sm := sm1,
        next_transition :=
          match t with
          | .start | .step | .resume => some .step
          | .pause | .stop => none }
    | .error _ =>
      { e1 with
        sm := sm1,
        next_transition :=
          match t with
          | .stop => none
          | _ => some .stop }
  | none => e

/-! ## nodo_runtime/src/schedule_executor.rs — `SequenceExec::cycle` -/

/-- One member of a `SequenceExec`: a code-let state machine together
with the vise's instance name (`vise.name()`). -/
structure ViseItem (σ : Type) where
  name : String
  sm : StateMachine σ
  deriving DecidableEq, Repr

/-- The member loop of `SequenceExec::cycle`: give every member the
transition, in order, collecting the `(instance-name, error)` failures
in order.  The loop never stops early. -/
def SequenceExec.cycleMembers (cycle : σ → Transition → Except ε κ × σ)
    (t : Transition) :
    List (ViseItem σ) →
      List (ViseItem σ) × List (String × TransitionError ε)
  | [] => ([], [])
  | item :: rest =>
    let (sm1, res) := item.sm.transition cycle t
    let (rest1, fails) := SequenceExec.cycleMembers cycle t rest
    match res with
    | .ok _ => ({ item with sm := sm1 } :: rest1, fails)
    | .error err =>
      ({ item with sm := sm1 } :: rest1, (item.name, err) :: fails)

/-- `SequenceExec::cycle` from
`src/nodo_runtime/src/schedule_executor.rs`: run every member, and
return the failure bag when it is non-empty, `RUNNING` otherwise. -/
def SequenceExec.cycle (cycle : σ → Transition → Except ε κ × σ)
    (items : List (ViseItem σ)) (t : Transition) :
    List (ViseItem σ) ×
      Except (List (String × TransitionError ε)) DefaultStatus :=
  let (items1, fails) := SequenceExec.cycleMembers cycle t items
  (items1, if fails.isEmpty then .ok .running else .error fails)

/-! ## Theorems -/

/-- `State::transition` has no entry for the `Error` source state. -/
theorem State.transition_error_eq_none (u : Transition) :
    State.transition .error u = none := by
  cases u <;> rfl

/-- With overflow `Reject cap`, retention `Drop`, and a back stage at
capacity, every push of a whole list of values is rejected and the back
stage is unchanged. -/
theorem BackStage.pushAll_at_cap {α : Type} {cap : Nat} {back : List α}
    (vs : List α) (h : back.length = cap) :
    BackStage.pushAll ⟨back, .reject cap, .drop⟩ vs =
      (⟨back, .reject cap, .drop⟩,
       vs.map (fun _ => Except.error PushError.rejected)) := by
  induction vs with
  | nil => rfl
  | cons v rest ih =>
    simp [BackStage.pushAll, BackStage.push, h, ih]

/-- Claim C2: for a staged queue with retention policy `EnforceEmpty`,
the claim states that after sync — violation or not — the front stage
holds exactly the pre-sync back contents.  This is false: on a
violation `sync` returns early and moves nothing.  Concretely, with
back `[1]` and front `[2]`, sync signals the violation but leaves the
front at `[2]`, not `[1]`. -/
theorem BackStage.sync_enforceEmpty_violation_keeps_front :
    BackStage.sync (⟨[1], .forget 2, .enforceEmpty⟩ : BackStage Nat)
        ⟨[2], 2⟩ =
      some (⟨[1], .forget 2, .enforceEmpty⟩, ⟨[2], 2⟩,
            .error .notEmpty) ∧
    ([2] : List Nat) ≠ [1] := by
  exact ⟨rfl, by decide⟩

/-- Claim C2 (amended): sync with retention `EnforceEmpty` signals the
violation iff the front was non-empty; when the front was empty the
front afterwards holds exactly the pre-sync back contents and the back
is empty; on a violation both stages are left unchanged. -/
theorem BackStage.sync_enforceEmpty (p : OverflowPolicy)
    (back front : List α) (cap : Nat) :
    BackStage.sync ⟨back, p, .enforceEmpty⟩ ⟨front, cap⟩ =
      (if front.isEmpty then
        some (⟨[], p, .enforceEmpty⟩, ⟨back, cap⟩, .ok ())
      else
        some (⟨back, p, .enforceEmpty⟩, ⟨front, cap⟩,
              .error .notEmpty)) ∧
    ((BackStage.sync ⟨back, p, .enforceEmpty⟩ ⟨front, cap⟩ =
        some (⟨back, p, .enforceEmpty⟩, ⟨front, cap⟩,
              .error .notEmpty) ∧ front ≠ []) ∨
     (BackStage.sync ⟨back, p, .enforceEmpty⟩ ⟨front, cap⟩ =
        some (⟨[], p, .enforceEmpty⟩, ⟨back, cap⟩, .ok ()) ∧
      front = [])) := by
  cases front with
  | nil => exact ⟨by simp [BackStage.sync], Or.inr ⟨by simp [BackStage.sync], rfl⟩⟩
  | cons x rest =>
    refine ⟨by simp [BackStage.sync], Or.inl ⟨by simp [BackStage.sync], by simp⟩⟩

/-- Claim C3: for a staged queue with overflow `Forget n` and retention
`Keep`, when the pre-sync stages respect the capacity (`|back| ≤ n`,
`|front| ≤ n`, which `push` maintains and the code asserts), sync
empties the back stage, evicts the oldest
`|front| + |back| − n` items from the front, appends the back items,
and the resulting front length is `min (|front| + |back|) n`. -/
theorem BackStage.sync_keep_forget {α : Type} (n : Nat)
    (back front : List α) (cap : Nat)
    (hb : back.length ≤ n) (hf : front.length ≤ n) :
    BackStage.sync ⟨back, .forget n, .keep⟩ ⟨front, cap⟩ =
      some (⟨[], .forget n, .keep⟩,
            ⟨front.drop (front.length + back.length - n) ++ back, cap⟩,
            .ok ()) ∧
    (front.drop (front.length + back.length - n) ++ back).length =
      min (front.length + back.length) n := by
  constructor
  · by_cases h : n - front.length < back.length
    · have hd : back.length - (n - front.length) =
          front.length + back.length - n := by omega
      simp [BackStage.sync, hb, hf, h, hd]
    · have h0 : front.length + back.length - n = 0 := by omega
      simp [BackStage.sync, hb, hf, h, h0]
  · simp only [List.length_append, List.length_drop]
    omega

/-- Witness for C3 at `n = 2`, front `[1,2]`, back `[3]`: the oldest
front item is evicted and the front ends as `[2,3]`. -/
theorem BackStage.sync_keep_forget_witness :
    BackStage.sync (⟨[3], .forget 2, .keep⟩ : BackStage Nat)
        ⟨[1, 2], 2⟩ =
      some (⟨[], .forget 2, .keep⟩, ⟨[2, 3], 2⟩, .ok ()) := by
  have h := BackStage.sync_keep_forget 2 ([3] : List Nat) [1, 2] 2
    (by decide) (by decide)
  simpa using h.1

/-- Claim C4: the claim states that with overflow `Resize` and
retention `Keep`, sync appends the back items onto the front, leaving
front = front_before ++ back_before and the back empty.  The source
instead appends the *front* items onto the *back*
(`self.items.append(&mut target.items)`), leaving the front empty and
everything in the back — contradicting `sync`'s own doc comment
("moves all items from the backstage to the front stage").  At back
`[2]`, front `[1]`: the code yields front `[]` and back `[2, 1]`
instead of front `[1, 2]` and back `[]`. -/
theorem BackStage.sync_keep_resize_swapped :
    BackStage.sync (⟨[2], .resize 0 2, .keep⟩ : BackStage Nat)
        ⟨[1], 1⟩ =
      some (⟨[2, 1], .resize 0 2, .keep⟩, ⟨[], 1⟩, .ok ()) ∧
    ([] : List Nat) ≠ [1, 2] := by
  exact ⟨rfl, by decide⟩

/-- Claim C9: with overflow `Reject cap` (retention `Drop`, the
combination the transmitter uses; `Keep` is forbidden by the
constructor), a push at capacity is rejected and leaves the back stage
unchanged — hence every subsequent push of any list of values is
rejected with the back stage untouched — a push below capacity appends
the value, and a subsequent sync moves exactly the `cap` stored items
to the front (shown for retention `Drop`, and for `EnforceEmpty` with
an empty front). -/
theorem BackStage.reject_cap_push_sync {α : Type} (cap : Nat)
    (back front : List α) (v : α) (vs : List α) (cap2 : Nat) :
    (back.length = cap →
      BackStage.push ⟨back, .reject cap, .drop⟩ v =
        (⟨back, .reject cap, .drop⟩, .error .rejected) ∧
      BackStage.pushAll ⟨back, .reject cap, .drop⟩ vs =
        (⟨back, .reject cap, .drop⟩,
         vs.map (fun _ => Except.error PushError.rejected))) ∧
    (back.length < cap →
      BackStage.push ⟨back, .reject cap, .drop⟩ v =
        (⟨back ++ [v], .reject cap, .drop⟩, .ok ())) ∧
    (back.length = cap →
      BackStage.sync ⟨back, .reject cap, .drop⟩ ⟨front, cap2⟩ =
        some (⟨[], .reject cap, .drop⟩, ⟨back, cap2⟩, .ok ()) ∧
      BackStage.sync ⟨back, .reject cap, .enforceEmpty⟩
          ⟨([] : List α), cap2⟩ =
        some (⟨[], .reject cap, .enforceEmpty⟩, ⟨back, cap2⟩, .ok ())) := by
  refine ⟨fun h => ⟨?_, BackStage.pushAll_at_cap vs h⟩, fun h => ?_, fun h => ⟨?_, ?_⟩⟩
  · simp [BackStage.push, h]
  · simp [BackStage.push, Nat.ne_of_lt h]
  · simp [BackStage.sync]
  · simp [BackStage.sync]

/-- Witness for C9 at `cap = 1`, back `[5]`: a push of `7` is rejected,
two further pushes are both rejected leaving the stage unchanged, and
sync admits exactly the one stored item. -/
theorem BackStage.reject_cap_push_sync_witness :
    BackStage.push (⟨[5], .reject 1, .drop⟩ : BackStage Nat) 7 =
      (⟨[5], .reject 1, .drop⟩, .error .rejected) ∧
    BackStage.pushAll (⟨[5], .reject 1, .drop⟩ : BackStage Nat) [8, 9] =
      (⟨[5], .reject 1, .drop⟩, [.error .rejected, .error .rejected]) ∧
    BackStage.sync (⟨[5], .reject 1, .drop⟩ : BackStage Nat) ⟨[9], 3⟩ =
      some (⟨[], .reject 1, .drop⟩, ⟨[5], 3⟩, .ok ()) := by
  have h := BackStage.reject_cap_push_sync 1 ([5] : List Nat) [9] 7 [8, 9] 3
  exact ⟨(h.1 rfl).1, (h.1 rfl).2, (h.2.2 rfl).1⟩

/-- Claim C1: the claim states that on the first failed push into
consumer `i` during a flush, bit `i` of the returned error indicator is
set (`get i = true`, `is_err = true`) and the instance's flush step
fails.  The source's `FlushErrorIndicator::mark` performs
`self.marks &= 1 << i` — an AND with an all-zero mask — so the bit is
never set.  Concretely: a transmitter with one message and a single
connected consumer whose back stage is `Reject(0)` (always full) has
its push fail immediately, yet the returned indicator reports no error
at bit 0, `is_err` is false, and the per-instance flush check passes.
Marking the zero indicator provably leaves it zero. -/
theorem DoubleBufferTx.flush_mark_never_sets_bit :
    (DoubleBufferTx.flush
        { outbox := ⟨[7], .reject 1, .drop⟩,
          connections := [⟨([] : List Nat), .reject 0, .drop⟩] }).2 =
      { available := 1, cloned := 0, published := 0,
        error_indicator := ⟨0⟩ } ∧
    (DoubleBufferTx.flush
        { outbox := ⟨[7], .reject 1, .drop⟩,
          connections := [⟨([] : List Nat), .reject 0, .drop⟩]
        }).2.error_indicator.get 0 = false ∧
    (DoubleBufferTx.flush
        { outbox := ⟨[7], .reject 1, .drop⟩,
          connections := [⟨([] : List Nat), .reject 0, .drop⟩]
        }).2.error_indicator.isErr = false ∧
    instanceFlushFails
        [(DoubleBufferTx.flush
            { outbox := ⟨[7], .reject 1, .drop⟩,
              connections := [⟨([] : List Nat), .reject 0, .drop⟩]
            }).2] = false ∧
    (∀ i : Nat, FlushErrorIndicator.mark ⟨0⟩ i = ⟨0⟩) := by
  refine ⟨rfl, rfl, rfl, rfl, fun i => ?_⟩
  simp [FlushErrorIndicator.mark]

/-- Claim C10: the claim states that `pop` on a triple of receivers
returns the `QueueEmtpy` error whenever at least one receiver is empty
and never panics.  The triple's `is_empty` only consults the first two
receivers, so when the third is empty while the first two are not,
`pop` unwraps an `Err` and panics (modelled as `none`).  When all three
are non-empty the heads are returned as claimed. -/
theorem triplePop_panics_when_third_empty :
    triplePop (⟨[1]⟩ : DoubleBufferRx Nat) (⟨[2]⟩ : DoubleBufferRx Nat)
        (⟨[]⟩ : DoubleBufferRx Nat) = none ∧
    (∀ r : (DoubleBufferRx Nat × DoubleBufferRx Nat × DoubleBufferRx Nat) ×
        Except RxRecvError (Nat × Nat × Nat),
      triplePop (⟨[1]⟩ : DoubleBufferRx Nat) (⟨[2]⟩ : DoubleBufferRx Nat)
        (⟨[]⟩ : DoubleBufferRx Nat) ≠ some r) ∧
    triplePop (⟨[1]⟩ : DoubleBufferRx Nat) (⟨[2]⟩ : DoubleBufferRx Nat)
        (⟨[3]⟩ : DoubleBufferRx Nat) =
      some ((⟨[]⟩, ⟨[]⟩, ⟨[]⟩), .ok (1, 2, 3)) := by
  exact ⟨rfl, fun r h => by simp [triplePop, tripleIsEmpty,
    DoubleBufferRx.isEmpty, DoubleBufferRx.pop] at h, rfl⟩

/-- Claim C5: whenever the inner cycle of a legally requested
transition fails, the state machine moves to `Error` (keeping the
mutated inner state) and the failure propagates as
`ExecutionFailure(transition, report)`; and once the state is `Error`,
no request is ever legal again, so every subsequent transition —
over any list of further requests — fails with `InvalidTransition`
and leaves the machine unchanged. -/
theorem StateMachine.error_on_failure_and_sticky
    {σ ε κ : Type} (cycle : σ → Transition → Except ε κ × σ)
    (m : StateMachine σ) (t : Transition) :
    (∀ ns err inner1, m.state.transition t = some ns →
      cycle m.inner t = (.error err, inner1) →
      m.transition cycle t =
        ({ inner := inner1, state := .error },
         .error (.executionFailure t err))) ∧
    (m.state = .error →
      ∀ ts : List Transition,
        (StateMachine.runList cycle m ts).1 = m ∧
        (StateMachine.runList cycle m ts).2 =
          ts.map (fun u => .error (.invalidTransition .error u))) := by
  constructor
  · intro ns err inner1 hns hcy
    simp [StateMachine.transition, hns, hcy]
  · intro herr ts
    have hstep : ∀ u, m.transition cycle u =
        (m, .error (.invalidTransition .error u)) := by
      intro u
      simp [StateMachine.transition, herr, State.transition_error_eq_none]
    induction ts with
    | nil => exact ⟨rfl, rfl⟩
    | cons u us ih =>
      simp [StateMachine.runList, hstep u, ih]

/-- Witness for C5: a failing inner cycle on a legal `Step` request
moves the machine to `Error` with the failure attached, and from
`Error` both a `Start` and a `Step` request are refused. -/
theorem StateMachine.error_on_failure_and_sticky_witness :
    StateMachine.transition
        (fun (s : Nat) (_ : Transition) =>
          ((Except.error 0 : Except Nat Nat), s + 1))
        ⟨0, .started⟩ .step =
      (⟨1, .error⟩, .error (.executionFailure .step 0)) ∧
    (StateMachine.runList
        (fun (s : Nat) (_ : Transition) =>
          ((Except.error 0 : Except Nat Nat), s + 1))
        ⟨0, .error⟩ [.start, .step]).2 =
      [.error (.invalidTransition .error .start),
       .error (.invalidTransition .error .step)] := by
  refine ⟨?_, ?_⟩
  · exact (StateMachine.error_on_failure_and_sticky
      (fun (s : Nat) (_ : Transition) =>
        ((Except.error 0 : Except Nat Nat), s + 1))
      ⟨0, .started⟩ .step).1 .started 0 1 rfl rfl
  · exact ((StateMachine.error_on_failure_and_sticky
      (fun (s : Nat) (_ : Transition) =>
        ((Except.error 0 : Except Nat Nat), s + 1))
      ⟨0, .error⟩ .step).2 rfl [.start, .step]).2

/-- Claim C6: when `(state, transition)` has no entry in the table,
`StateMachine::transition` returns `InvalidTransition` and leaves both
the state and the inner codelet untouched (the result does not depend
on the inner cycle function at all); when it has an entry and the
inner cycle succeeds, the state becomes the table's destination; and
the table's entries are exactly Inactive→Start, Started→Step/Pause/Stop
and Paused→Resume/Stop. -/
theorem StateMachine.transition_table_exact
    {σ ε κ : Type} (cycle : σ → Transition → Except ε κ × σ)
    (m : StateMachine σ) (t : Transition) :
    (m.state.transition t = none →
      m.transition cycle t =
        (m, .error (.invalidTransition m.state t))) ∧
    (∀ ns k inner1, m.state.transition t = some ns →
      cycle m.inner t = (.ok k, inner1) →
      m.transition cycle t = ({ inner := inner1, state := ns }, .ok k)) ∧
    (∀ (s : State) (u : Transition) (d : State),
      State.transition s u = some d ↔
        ((s = .inactive ∧ u = .start ∧ d = .started) ∨
         (s = .started ∧ u = .step ∧ d = .started) ∨
         (s = .started ∧ u = .pause ∧ d = .paused) ∨
         (s = .started ∧ u = .stop ∧ d = .inactive) ∨
         (s = .paused ∧ u = .resume ∧ d = .started) ∨
         (s = .paused ∧ u = .stop ∧ d = .inactive))) := by
  refine ⟨fun hn => ?_, fun ns k inner1 hns hcy => ?_, fun s u d => ?_⟩
  · simp [StateMachine.transition, hn]
  · simp [StateMachine.transition, hns, hcy]
  · cases s <;> cases u <;>
      simp [State.transition, eq_comm (a := d)]

/-- Witness for C6: a `Stop` request in `Inactive` is refused without
consulting the inner codelet, and a `Start` request in `Inactive` with
a succeeding inner cycle lands in `Started`. -/
theorem StateMachine.transition_table_exact_witness :
    StateMachine.transition
        (fun (s : Nat) (_ : Transition) =>
          ((Except.ok 5 : Except Nat Nat), s + 1))
        ⟨0, .inactive⟩ .stop =
      (⟨0, .inactive⟩, .error (.invalidTransition .inactive .stop)) ∧
    StateMachine.transition
        (fun (s : Nat) (_ : Transition) =>
          ((Except.ok 5 : Except Nat Nat), s + 1))
        ⟨0, .inactive⟩ .start =
      (⟨1, .started⟩, .ok 5) := by
  refine ⟨?_, ?_⟩
  · exact (StateMachine.transition_table_exact
      (fun (s : Nat) (_ : Transition) =>
        ((Except.ok 5 : Except Nat Nat), s + 1))
      ⟨0, .inactive⟩ .stop).1 rfl
  · exact (StateMachine.transition_table_exact
      (fun (s : Nat) (_ : Transition) =>
        ((Except.ok 5 : Except Nat Nat), s + 1))
      ⟨0, .inactive⟩ .start).2.1 .started 5 1 rfl rfl

/-- Claim C7: for the schedule executor (states taken after the
max-step-count adjustment at the top of `spin`): if executing the
pending transition fails, the next transition becomes `Stop` — unless
the failed transition was itself `Stop`, in which case no transition is
pending any more (the schedule is terminated); after a successfully
executed `Stop` or `Pause` the schedule is terminated; and
`is_terminated()` holds exactly when no next transition is pending. -/
theorem ScheduleExecutor.spin_law {σ ε : Type}
    (cycle : σ → Transition → Except ε DefaultStatus × σ)
    (e : ScheduleExecutor σ) :
    (∀ (t : Transition) (err : TransitionError ε),
      e.adjustMaxSteps.next_transition = some t →
      (e.adjustMaxSteps.sm.transition cycle t).2 = .error err →
      (ScheduleExecutor.spin cycle e).next_transition =
        (if t = .stop then none else some .stop)) ∧
    (∀ (t : Transition) (k : DefaultStatus),
      e.adjustMaxSteps.next_transition = some t →
      (t = .pause ∨ t = .stop) →
      (e.adjustMaxSteps.sm.transition cycle t).2 = .ok k →
      (ScheduleExecutor.spin cycle e).next_transition = none) ∧
    (e.isTerminated = true ↔ e.next_transition = none) := by
  refine ⟨fun t err h hres => ?_, fun t k h ht hres => ?_, ?_⟩
  · rcases hp : e.adjustMaxSteps.sm.transition cycle t with ⟨sm1, result⟩
    rw [hp] at hres
    simp only at hres
    subst hres
    cases t <;> simp [ScheduleExecutor.spin, h, hp]
  · rcases hp : e.adjustMaxSteps.sm.transition cycle t with ⟨sm1, result⟩
    rw [hp] at hres
    simp only at hres
    subst hres
    rcases ht with rfl | rfl <;> cases k <;>
      simp [ScheduleExecutor.spin, h, hp]
  · simp [ScheduleExecutor.isTerminated, Option.isNone_iff_eq_none]

/-- Witness for C7: with a pending `Step` whose execution fails the
next transition becomes `Stop`, and a successfully executed `Pause`
terminates the schedule. -/
theorem ScheduleExecutor.spin_law_witness :
    (ScheduleExecutor.spin
        (fun (s : Nat) (_ : Transition) =>
          ((Except.error 0 : Except Nat DefaultStatus), s + 1))
        { sm := ⟨0, .started⟩, next_transition := some .step,
          max_step_count := none, num_steps := 0 }).next_transition =
      some .stop ∧
    (ScheduleExecutor.spin
        (fun (s : Nat) (_ : Transition) =>
          ((Except.ok DefaultStatus.running : Except Nat DefaultStatus),
           s + 1))
        { sm := ⟨0, .started⟩, next_transition := some .pause,
          max_step_count := none, num_steps := 0 }).next_transition =
      none := by
  refine ⟨?_, ?_⟩
  · have h := (ScheduleExecutor.spin_law
      (fun (s : Nat) (_ : Transition) =>
        ((Except.error 0 : Except Nat DefaultStatus), s + 1))
      { sm := ⟨0, .started⟩, next_transition := some .step,
        max_step_count := none, num_steps := 0 }).1 .step
      (.executionFailure .step 0) rfl rfl
    simpa using h
  · exact (ScheduleExecutor.spin_law
      (fun (s : Nat) (_ : Transition) =>
        ((Except.ok DefaultStatus.running : Except Nat DefaultStatus),
         s + 1))
      { sm := ⟨0, .started⟩, next_transition := some .pause,
        max_step_count := none, num_steps := 0 }).2.1 .pause
      .running rfl (Or.inl rfl) rfl

/-- The member loop of `SequenceExec::cycle` gives every member the
transition (no early stop) and collects exactly the failing members'
`(name, error)` pairs, in member order. -/
theorem SequenceExec.cycleMembers_spec {σ ε κ : Type}
    (cycle : σ → Transition → Except ε κ × σ) (t : Transition)
    (items : List (ViseItem σ)) :
    SequenceExec.cycleMembers cycle t items =
      (items.map (fun it => { it with sm := (it.sm.transition cycle t).1 }),
       items.filterMap (fun it =>
         match (it.sm.transition cycle t).2 with
         | .ok _ => none
         | .error err => some (it.name, err))) := by
  induction items with
  | nil => rfl
  | cons it rest ih =>
    rcases hp : it.sm.transition cycle t with ⟨sm1, res⟩
    cases res <;> simp [SequenceExec.cycleMembers, hp, ih]

/-- Claim C8: the claim states that `SequenceExec::cycle` calls every
member in order even when an earlier member fails, accumulates all
failures into a bag of `(instance-name, error)` pairs, and when no
member fails returns `Running` if any member executed work and
`Skipped` otherwise.  The last part is false: the source returns
`RUNNING` whenever the failure bag is empty, never `Skipped`.
Concretely, a single member whose inner cycle reports `Skipped` (no
work executed) still makes the sequence return `Running`. -/
theorem SequenceExec.cycle_skipped_counterexample :
    (SequenceExec.cycle
        (fun (s : Nat) (_ : Transition) =>
          ((Except.ok DefaultStatus.skipped : Except Nat DefaultStatus),
           s))
        [⟨"a", ⟨0, .started⟩⟩] .step).2 = .ok .running ∧
    (Except.ok DefaultStatus.running :
        Except (List (String × TransitionError Nat)) DefaultStatus) ≠
      .ok .skipped := by
  exact ⟨rfl, by simp⟩

/-- Claim C8 (amended): `SequenceExec::cycle` calls `cycle` on every
member in order even when an earlier member fails, accumulating all
failures into a bag of `(instance-name, error)` pairs in member order;
when no member fails it returns `Running` regardless of whether any
member executed work (it never returns `Skipped`), and otherwise it
returns the failure bag. -/
theorem SequenceExec.cycle_law {σ ε κ : Type}
    (cycle : σ → Transition → Except ε κ × σ)
    (items : List (ViseItem σ)) (t : Transition) :
    (SequenceExec.cycle cycle items t).1 =
      items.map (fun it => { it with sm := (it.sm.transition cycle t).1 }) ∧
    (SequenceExec.cycleMembers cycle t items).2 =
      items.filterMap (fun it =>
        match (it.sm.transition cycle t).2 with
        | .ok _ => none
        | .error err => some (it.name, err)) ∧
    ((SequenceExec.cycleMembers cycle t items).2 = [] →
      (SequenceExec.cycle cycle items t).2 = .ok .running) ∧
    ((SequenceExec.cycleMembers cycle t items).2 ≠ [] →
      (SequenceExec.cycle cycle items t).2 =
        .error (SequenceExec.cycleMembers cycle t items).2) := by
  refine ⟨?_, ?_, fun h => ?_, fun h => ?_⟩
  · simp [SequenceExec.cycle, SequenceExec.cycleMembers_spec]
  · simp [SequenceExec.cycleMembers_spec]
  · simp [SequenceExec.cycle, h]
  · simp [SequenceExec.cycle, h]

/-- Witness for C8: two members, both failing (the first by a failing
inner cycle on a legal request, the second by an illegal request) —
both failures are collected, in order, and returned as the bag. -/
theorem SequenceExec.cycle_law_witness :
    (SequenceExec.cycle
        (fun (s : Nat) (_ : Transition) =>
          ((Except.error 9 : Except Nat Nat), s + 1))
        [⟨"a", ⟨0, .started⟩⟩, ⟨"b", ⟨0, .inactive⟩⟩] .step).2 =
      .error [("a", .executionFailure .step 9),
              ("b", .invalidTransition .inactive .step)] := by
  have h := (SequenceExec.cycle_law
    (fun (s : Nat) (_ : Transition) =>
      ((Except.error 9 : Except Nat Nat), s + 1))
    [⟨"a", ⟨0, .started⟩⟩, ⟨"b", ⟨0, .inactive⟩⟩] .step).2.2.2
    (by simp [SequenceExec.cycleMembers_spec, StateMachine.transition,
      State.transition])
  exact h

end Nodo
